import Mathlib

/-!
Verification of the typed-decoding layer (`convert.rs`) of an AMQP 1.0 codec.

Shallow embedding of `src/convert.rs` (the per-target-type `TryFromValue`
conversions) together with the data model it operates on.  The `Value` tree,
`Symbol`, the error taxonomy and the descriptor-dispatch decoder are declared
in modules not present in the source tree; those are modelled from the spec
(each such definition carries a doc comment starting `Modelled from the spec:`).
Rust machine integers carry no arithmetic in this layer, so integer payloads
are embedded as `Nat`; Rust `String` payloads are embedded as their UTF-8 byte
sequence (`List Nat`), which makes the byte-wise ordering and the lossy UTF-8
reinterpretation of symbol bytes directly expressible.  The generic
`TryFromValue` trait bound of the source's `Option<T>`/`Vec<T>` impls is
embedded as an explicit element-conversion function argument.
-/

namespace Dove

/-- Modelled from the spec: the error taxonomy entity (module `error` is not in
`src/`): an immutable value carrying a condition code and an optional
diagnostic message. -/
structure AmqpError where
  condition : String
  message : Option String
deriving DecidableEq, Repr

namespace condition

/-- Modelled from the spec: the well-known decode-error condition code. -/
def DECODE_ERROR : String := "amqp:decode-error"

end condition

/-- Modelled from the spec: the general "error with explicit condition and
message" constructor. -/
def AmqpError.amqp_error (c : String) (m : Option String) : AmqpError :=
  ⟨c, m⟩

/-- Modelled from the spec: the "decode error with message" convenience
constructor. -/
def AmqpError.decode_error (m : Option String) : AmqpError :=
  AmqpError.amqp_error condition.DECODE_ERROR m

/-- The source's `Result<T>`: success or an `AmqpError`. -/
abbrev Result (α : Type) := Except AmqpError α

/-- A Rust byte vector / the UTF-8 byte content of a Rust `String`. -/
abbrev Bytes := List Nat

/-- Modelled from the spec: the recursive tagged-union `Value` (module `types`
is not in `src/`): absence marker, boolean, four unsigned integer widths,
UTF-8 text, symbol bytes, List, Array, Map as an ordered sequence of key/value
pairs (keys not guaranteed unique or string-typed), and the described-value
pair of descriptor and payload. -/
inductive Value where
  | null : Value
  | bool : Bool → Value
  | ubyte : Nat → Value
  | ushort : Nat → Value
  | uint : Nat → Value
  | ulong : Nat → Value
  | string : Bytes → Value
  | symbol : Bytes → Value
  | list : List Value → Value
  | array : List Value → Value
  | map : List (Value × Value) → Value
  | described : Value → Value → Value

mutual

/-- Structural equality test on `Value` trees (Rust's derived `PartialEq`). -/
def Value.beq : Value → Value → Bool
  | .null, .null => true
  | .bool a, .bool b => a == b
  | .ubyte a, .ubyte b => a == b
  | .ushort a, .ushort b => a == b
  | .uint a, .uint b => a == b
  | .ulong a, .ulong b => a == b
  | .string a, .string b => a == b
  | .symbol a, .symbol b => a == b
  | .list xs, .list ys => Value.beqList xs ys
  | .array xs, .array ys => Value.beqList xs ys
  | .map xs, .map ys => Value.beqPairs xs ys
  | .described d p, .described e q => Value.beq d e && Value.beq p q
  | _, _ => false

/-- Elementwise `Value.beq` on lists. -/
def Value.beqList : List Value → List Value → Bool
  | [], [] => true
  | x :: xs, y :: ys => Value.beq x y && Value.beqList xs ys
  | _, _ => false

/-- Pairwise `Value.beq` on entry lists. -/
def Value.beqPairs : List (Value × Value) → List (Value × Value) → Bool
  | [], [] => true
  | (k, v) :: xs, (l, w) :: ys =>
      Value.beq k l && Value.beq v w && Value.beqPairs xs ys
  | _, _ => false

end

/-- Shape test: is this the List variant? -/
def Value.isList : Value → Bool
  | .list _ => true
  | _ => false

/-- Shape test: is this the Array variant? -/
def Value.isArray : Value → Bool
  | .array _ => true
  | _ => false

/-- Shape test: is this the Map variant? -/
def Value.isMap : Value → Bool
  | .map _ => true
  | _ => false

/-- Shape test: is this the String variant? -/
def Value.isString : Value → Bool
  | .string _ => true
  | _ => false

/-- Shape test: is this the Symbol variant? -/
def Value.isSymbol : Value → Bool
  | .symbol _ => true
  | _ => false

/-- Shape test: is this the Described variant? -/
def Value.isDescribed : Value → Bool
  | .described _ _ => true
  | _ => false

/-- Modelled from the spec: `Symbol`, an immutable byte sequence with value
semantics (module `symbol` is not in `src/`). -/
structure Symbol where
  bytes : Bytes
deriving DecidableEq, Repr

/-- Modelled from the spec: `Symbol::from_vec`, constructing a `Symbol` from
raw bytes. -/
def Symbol.from_vec (v : Bytes) : Symbol := ⟨v⟩

/-- Is a UTF-8 continuation byte (`0x80..=0xBF`). -/
def utf8Cont (b : Nat) : Prop := 0x80 ≤ b ∧ b ≤ 0xBF

instance (b : Nat) : Decidable (utf8Cont b) := by
  unfold utf8Cont; infer_instance

/-- Valid second byte of a three-byte UTF-8 sequence with lead byte `a`. -/
def utf8Cont3 (a b : Nat) : Prop :=
  (a = 0xE0 ∧ 0xA0 ≤ b ∧ b ≤ 0xBF) ∨
  (0xE1 ≤ a ∧ a ≤ 0xEC ∧ utf8Cont b) ∨
  (a = 0xED ∧ 0x80 ≤ b ∧ b ≤ 0x9F) ∨
  (0xEE ≤ a ∧ a ≤ 0xEF ∧ utf8Cont b)

instance (a b : Nat) : Decidable (utf8Cont3 a b) := by
  unfold utf8Cont3; infer_instance

/-- Valid second byte of a four-byte UTF-8 sequence with lead byte `a`. -/
def utf8Cont4 (a b : Nat) : Prop :=
  (a = 0xF0 ∧ 0x90 ≤ b ∧ b ≤ 0xBF) ∨
  (0xF1 ≤ a ∧ a ≤ 0xF3 ∧ utf8Cont b) ∨
  (a = 0xF4 ∧ 0x80 ≤ b ∧ b ≤ 0x8F)

instance (a b : Nat) : Decidable (utf8Cont4 a b) := by
  unfold utf8Cont4; infer_instance

/-- The UTF-8 encoding of U+FFFD REPLACEMENT CHARACTER. -/
def replacementBytes : Bytes := [0xEF, 0xBF, 0xBD]

/-- Rust's `String::from_utf8_lossy` on bytes, producing the UTF-8 bytes of the
resulting string: valid UTF-8 sequences pass through, each maximal invalid
subpart is replaced by U+FFFD. -/
def from_utf8_lossy : Bytes → Bytes
  | [] => []
  | a :: rest =>
    if a < 0x80 then a :: from_utf8_lossy rest
    else if 0xC2 ≤ a ∧ a ≤ 0xDF then
      match rest with
      | [] => replacementBytes
      | b :: rest2 =>
        if utf8Cont b then a :: b :: from_utf8_lossy rest2
        else replacementBytes ++ from_utf8_lossy (b :: rest2)
    else if 0xE0 ≤ a ∧ a ≤ 0xEF then
      match rest with
      | [] => replacementBytes
      | b :: rest2 =>
        if utf8Cont3 a b then
          match rest2 with
          | [] => replacementBytes
          | c :: rest3 =>
            if utf8Cont c then a :: b :: c :: from_utf8_lossy rest3
            else replacementBytes ++ from_utf8_lossy (c :: rest3)
        else replacementBytes ++ from_utf8_lossy (b :: rest2)
    else if 0xF0 ≤ a ∧ a ≤ 0xF4 then
      match rest with
      | [] => replacementBytes
      | b :: rest2 =>
        if utf8Cont4 a b then
          match rest2 with
          | [] => replacementBytes
          | c :: rest3 =>
            if utf8Cont c then
              match rest3 with
              | [] => replacementBytes
              | d :: rest4 =>
                if utf8Cont d then a :: b :: c :: d :: from_utf8_lossy rest4
                else replacementBytes ++ from_utf8_lossy (d :: rest4)
            else replacementBytes ++ from_utf8_lossy (c :: rest3)
        else replacementBytes ++ from_utf8_lossy (b :: rest2)
    else replacementBytes ++ from_utf8_lossy rest

/-- Rust's `Result::is_ok`. -/
def resIsOk {α : Type} : Result α → Bool
  | .ok _ => true
  | .error _ => false

/-- Rust's `Result::unwrap` restricted to `Ok` results; `collect()` after
`map(Result::unwrap)` over the ok partition is embedded as `filterMap okValue`. -/
def okValue {α : Type} : Result α → Option α
  | .ok a => some a
  | .error _ => none

/-- Embedding of `impl<T: TryFromValue> TryFromValue for Option<T>`: `Null` becomes `None`;
any other value is converted by the element conversion `f` (the `T` instance),
`?` propagating its error. -/
def option_try_from {α : Type} (f : Value → Result α) : Value → Result (Option α)
  | .null => .ok none
  | value =>
    match f value with
    | .ok t => .ok (some t)
    | .error e => .error e

/-- Embedding of `impl<T: TryFromValue> TryFromValue for Vec<T>`: List/Array elements are
each converted by `f` and partitioned into oks and errors; any error yields a
fresh decode error, otherwise the unwrapped oks are collected; any other value
is converted as a single element and wrapped in a one-element vector. -/
def vec_try_from {α : Type} (f : Value → Result α) : Value → Result (List α)
  | .list v =>
    let parts := (v.map f).partition resIsOk
    if parts.2.length > 0 then
      .error (AmqpError.decode_error (some "Error decoding list elements"))
    else
      .ok (parts.1.filterMap okValue)
  | .array v =>
    let parts := (v.map f).partition resIsOk
    if parts.2.length > 0 then
      .error (AmqpError.decode_error (some "Error decoding array elements"))
    else
      .ok (parts.1.filterMap okValue)
  | value =>
    match f value with
    | .ok t => .ok [t]
    | .error e => .error e

/-- Embedding of `impl TryFromValue for u8`. -/
def u8_try_from : Value → Result Nat
  | .ubyte v => .ok v
  | _ =>
    .error (AmqpError.amqp_error condition.DECODE_ERROR
      (some "Error converting value to u8"))

/-- Embedding of `impl TryFromValue for u64`. -/
def u64_try_from : Value → Result Nat
  | .ulong v => .ok v
  | _ => .error (AmqpError.decode_error (some "Error converting value to u64"))

/-- Embedding of `impl TryFromValue for u32`. -/
def u32_try_from : Value → Result Nat
  | .uint v => .ok v
  | _ =>
    .error (AmqpError.amqp_error condition.DECODE_ERROR
      (some "Error converting value to u32"))

/-- Embedding of `impl TryFromValue for u16`; the source's error message reads
`"Error converting value to u32"`. -/
def u16_try_from : Value → Result Nat
  | .ushort v => .ok v
  | _ =>
    .error (AmqpError.amqp_error condition.DECODE_ERROR
      (some "Error converting value to u32"))

/-- Embedding of `impl TryFromValue for bool`. -/
def bool_try_from : Value → Result Bool
  | .bool v => .ok v
  | _ => .error (AmqpError.decode_error (some "Error converting value to bool"))

/-- Embedding of `impl TryFromValue for String`: symbol bytes pass through
`String::from_utf8_lossy`, native strings pass unchanged. -/
def string_try_from : Value → Result Bytes
  | .symbol v => .ok (from_utf8_lossy v)
  | .string v => .ok v
  | _ =>
    .error (AmqpError.amqp_error condition.DECODE_ERROR
      (some "Error converting value to String"))

/-- Embedding of `impl TryFromValue for Symbol`. -/
def symbol_try_from : Value → Result Symbol
  | .symbol v => .ok (Symbol.from_vec v)
  | _ =>
    .error (AmqpError.amqp_error condition.DECODE_ERROR
      (some "Error converting value to Symbol"))

/-- Byte-lexicographic strict order on byte strings: Rust's `Ord` for
`String` compares the underlying UTF-8 bytes lexicographically. -/
def lexLt : Bytes → Bytes → Bool
  | [], [] => false
  | [], _ :: _ => true
  | _ :: _, [] => false
  | a :: as, b :: bs =>
    if a < b then true
    else if a = b then lexLt as bs
    else false

/-- Rust's `BTreeMap<String, Value>` is embedded as an association list sorted
strictly by byte-lexicographic key order; this is `BTreeMap::insert`,
replacing the stored value when the key is already present (the returned
previous value is discarded by the source). -/
def btreeInsert (k : Bytes) (v : Value) : List (Bytes × Value) → List (Bytes × Value)
  | [] => [(k, v)]
  | (l, w) :: rest =>
    if lexLt k l then (k, v) :: (l, w) :: rest
    else if k = l then (k, v) :: rest
    else (l, w) :: btreeInsert k v rest

/-- The entry loop of `impl TryFromValue for BTreeMap<String, Value>`: each
key is converted via `String::try_from` (`?` propagating the first key
failure) and the unconverted value is inserted under the converted key. -/
def btreemap_string_loop :
    List (Value × Value) → List (Bytes × Value) → Result (List (Bytes × Value))
  | [], m => .ok m
  | (key, value) :: rest, m =>
    match string_try_from key with
    | .error e => .error e
    | .ok k => btreemap_string_loop rest (btreeInsert k value m)

/-- Embedding of `impl TryFromValue for BTreeMap<String, Value>`. -/
def btreemap_string_try_from : Value → Result (List (Bytes × Value))
  | .map v => btreemap_string_loop v []
  | _ =>
    .error (AmqpError.amqp_error condition.DECODE_ERROR
      (some "Error converting value to Vec<Symbol>"))

/-- Key lookup in the association-list embedding of a `BTreeMap`
(`BTreeMap::get`). -/
def assocLookup (s : Bytes) : List (Bytes × Value) → Option Value
  | [] => none
  | (k, v) :: rest => if s = k then some v else assocLookup s rest

/-- Specification helper: the (unconverted) value of the last Map entry whose
key converts to the text key `s`; later entries take precedence. -/
def lastTextVal (s : Bytes) : List (Value × Value) → Option Value
  | [] => none
  | (k, v) :: rest =>
    match lastTextVal s rest with
    | some w => some w
    | none =>
      match string_try_from k with
      | .ok t => if t = s then some v else none
      | .error _ => none

/-- Specification helper: keys strictly ascending in byte-lexicographic
order — the `BTreeMap` ordering invariant. -/
def keysSorted : List (Bytes × Value) → Prop
  | [] => True
  | [_] => True
  | p :: q :: rest => lexLt p.1 q.1 = true ∧ keysSorted (q :: rest)

/-- Embedding of `impl TryFromValue for BTreeMap<Value, Value>`: the Map variant's entries
are returned unchanged (identity passthrough). -/
def btreemap_value_try_from : Value → Result (List (Value × Value))
  | .map v => .ok v
  | _ =>
    .error (AmqpError.amqp_error condition.DECODE_ERROR
      (some "Error converting value to Vec<Symbol>"))

mutual

/-- Rust `{:?}` debug formatting of a `Value`, used by the error-condition
conversion to cite the unexpected descriptor in its message. -/
def valueDebug : Value → String
  | .null => "Null"
  | .bool b => "Bool(" ++ toString b ++ ")"
  | .ubyte n => "Ubyte(" ++ toString n ++ ")"
  | .ushort n => "Ushort(" ++ toString n ++ ")"
  | .uint n => "Uint(" ++ toString n ++ ")"
  | .ulong n => "Ulong(" ++ toString n ++ ")"
  | .string s => "String(" ++ toString s ++ ")"
  | .symbol s => "Symbol(" ++ toString s ++ ")"
  | .list xs => "List([" ++ valueDebugList xs ++ "])"
  | .array xs => "Array([" ++ valueDebugList xs ++ "])"
  | .map xs => "Map(\x7b" ++ valueDebugPairs xs ++ "\x7d)"
  | .described d p => "Described(" ++ valueDebug d ++ ", " ++ valueDebug p ++ ")"

/-- Comma-separated debug formatting of a list of values. -/
def valueDebugList : List Value → String
  | [] => ""
  | [x] => valueDebug x
  | x :: y :: rest => valueDebug x ++ ", " ++ valueDebugList (y :: rest)

/-- Comma-separated debug formatting of map entries. -/
def valueDebugPairs : List (Value × Value) → String
  | [] => ""
  | [(k, v)] => valueDebug k ++ ": " ++ valueDebug v
  | (k, v) :: e :: rest =>
      valueDebug k ++ ": " ++ valueDebug v ++ ", " ++ valueDebugPairs (e :: rest)

end

/-- Modelled from the spec: the well-known error descriptor identity (the
AMQP 1.0 error list composite, numeric descriptor `0x1d`); module
`frame_codec` is not in `src/`. -/
def DESC_ERROR : Value := Value.ulong 0x1d

/-- Modelled from the spec: the descriptor-dispatch `FrameDecoder` (module
`frame_codec` is not in `src/`): carries the descriptor and the ordered
payload for positional field extraction. -/
structure FrameDecoder where
  descriptor : Value
  payload : Value

/-- Modelled from the spec: `FrameDecoder::new`; the spec assigns decoder
construction no failure mode, so it always succeeds. -/
def FrameDecoder.new (descriptor : Value) (payload : Value) : Result FrameDecoder :=
  .ok ⟨descriptor, payload⟩

/-- Modelled from the spec: positional field access — a field is absent
(`Null`) when the payload list is shorter than expected; a non-list payload
has no positional fields. -/
def FrameDecoder.field (d : FrameDecoder) (i : Nat) : Value :=
  match d.payload with
  | .list xs => xs.getD i Value.null
  | _ => Value.null

/-- Modelled from the spec: the error-condition composite — condition code
(mandatory), description (optional), info map (optional), decoded
positionally from the payload list. -/
structure ErrorCondition where
  condition : Symbol
  description : Option Bytes
  info : Option (List (Bytes × Value))

/-- Modelled from the spec: `ErrorCondition::decode` — fields are consumed
positionally; `Null` or a short payload means absent; the mandatory condition
field, when absent, raises a decode error naming the missing field. -/
def ErrorCondition.decode (d : FrameDecoder) : Result ErrorCondition :=
  match option_try_from symbol_try_from (d.field 0) with
  | .error e => .error e
  | .ok none =>
    .error (AmqpError.decode_error (some "Missing mandatory field condition"))
  | .ok (some c) =>
    match option_try_from string_try_from (d.field 1) with
    | .error e => .error e
    | .ok desc =>
      match option_try_from btreemap_string_try_from (d.field 2) with
      | .error e => .error e
      | .ok info => .ok ⟨c, desc, info⟩

/-- Embedding of `impl TryFromValue for ErrorCondition`: destructure the Described value,
construct the `FrameDecoder` (`?`), then dispatch on the descriptor — decode
on the well-known error descriptor, otherwise fail citing the found
descriptor; a non-Described value fails with a missing-descriptor error. -/
def errorcondition_try_from (value : Value) : Result ErrorCondition :=
  match value with
  | .described descriptor list =>
    match FrameDecoder.new descriptor list with
    | .error e => .error e
    | .ok decoder =>
      if Value.beq descriptor DESC_ERROR then ErrorCondition.decode decoder
      else
        .error (AmqpError.decode_error
          (some ("Expected error descriptor but found " ++ valueDebug descriptor)))
  | _ => .error (AmqpError.decode_error (some "Missing expected error descriptor"))

/-! ## Helper lemmas -/

theorem partition_errors_pos {α : Type} (f : Value → Result α) (xs : List Value)
    (h : ∃ x ∈ xs, resIsOk (f x) = false) :
    0 < ((xs.map f).partition resIsOk).2.length := by
  obtain ⟨x, hx, hfx⟩ := h
  rw [List.partition_eq_filter_filter]
  exact List.length_pos_of_mem
    (List.mem_filter.2 ⟨List.mem_map_of_mem f hx, by simp [hfx]⟩)

theorem partition_ok_all {α : Type} (f : Value → Result α) (xs : List Value)
    (h : ∀ x ∈ xs, resIsOk (f x) = true) :
    ((xs.map f).partition resIsOk).1 = xs.map f ∧
      ((xs.map f).partition resIsOk).2 = [] := by
  rw [List.partition_eq_filter_filter]
  refine ⟨List.filter_eq_self.2 ?_, List.filter_eq_nil_iff.2 ?_⟩
  · intro r hr
    obtain ⟨x, hx, rfl⟩ := List.mem_map.1 hr
    exact h x hx
  · intro r hr
    obtain ⟨x, hx, rfl⟩ := List.mem_map.1 hr
    simp [h x hx]

theorem forall2_filterMap {α : Type} (f : Value → Result α) (xs : List Value)
    (h : ∀ x ∈ xs, resIsOk (f x) = true) :
    List.Forall₂ (fun x y => f x = .ok y) xs ((xs.map f).filterMap okValue) := by
  induction xs with
  | nil => simp
  | cons x xs ih =>
    have hx := h x (by simp)
    cases hfx : f x with
    | error e => rw [hfx] at hx; simp [resIsOk] at hx
    | ok a =>
      simp only [List.map_cons, List.filterMap_cons, hfx, okValue]
      exact List.Forall₂.cons hfx (ih fun y hy => h y (by simp [hy]))

theorem lexLt_of_not (a : Bytes) :
    ∀ b : Bytes, lexLt a b = false → a ≠ b → lexLt b a = true := by
  induction a with
  | nil =>
    intro b h1 h2
    cases b with
    | nil => exact absurd rfl h2
    | cons y ys => simp [lexLt] at h1
  | cons x xs ih =>
    intro b h1 h2
    cases b with
    | nil => rfl
    | cons y ys =>
      simp only [lexLt] at h1 ⊢
      by_cases hxy : x < y
      · simp [hxy] at h1
      · by_cases heq : x = y
        · subst heq
          simp only [Nat.lt_irrefl, if_false, if_pos rfl] at h1 ⊢
          exact ih ys h1 (fun hh => h2 (by rw [hh]))
        · have hyx : y < x :=
            Nat.lt_of_le_of_ne (Nat.not_lt.1 hxy) (fun hh => heq hh.symm)
          simp [hyx]

theorem btreeInsert_cons (k : Bytes) (v : Value) (l : Bytes) (w : Value)
    (rest : List (Bytes × Value)) :
    btreeInsert k v ((l, w) :: rest)
      = if lexLt k l then (k, v) :: (l, w) :: rest
        else if k = l then (k, v) :: rest
        else (l, w) :: btreeInsert k v rest := rfl

theorem keysSorted_insert (k : Bytes) (v : Value) :
    ∀ m : List (Bytes × Value), keysSorted m → keysSorted (btreeInsert k v m) := by
  intro m
  induction m with
  | nil => intro _; simp [btreeInsert, keysSorted]
  | cons p rest ih =>
    obtain ⟨l, w⟩ := p
    intro h
    by_cases h1 : lexLt k l = true
    · rw [btreeInsert_cons, if_pos h1]
      exact ⟨h1, h⟩
    · by_cases h2 : k = l
      · rw [btreeInsert_cons, if_neg h1, if_pos h2]
        cases rest with
        | nil => trivial
        | cons q rest' => exact ⟨h2 ▸ h.1, h.2⟩
      · have hlk : lexLt l k = true := lexLt_of_not k l (Bool.eq_false_iff.2 h1) h2
        rw [btreeInsert_cons, if_neg h1, if_neg h2]
        cases rest with
        | nil => exact ⟨hlk, trivial⟩
        | cons q rest' =>
          obtain ⟨u₁, u₂⟩ := q
          have hs := ih h.2
          by_cases h3 : lexLt k u₁ = true
          · rw [btreeInsert_cons, if_pos h3] at hs ⊢
            exact ⟨hlk, hs⟩
          · by_cases h4 : k = u₁
            · rw [btreeInsert_cons, if_neg h3, if_pos h4] at hs ⊢
              exact ⟨hlk, hs⟩
            · rw [btreeInsert_cons, if_neg h3, if_neg h4] at hs ⊢
              exact ⟨h.1, hs⟩

theorem assocLookup_btreeInsert (s k : Bytes) (v : Value) :
    ∀ m : List (Bytes × Value),
      assocLookup s (btreeInsert k v m)
        = if s = k then some v else assocLookup s m := by
  intro m
  induction m with
  | nil => simp [btreeInsert, assocLookup]
  | cons p rest ih =>
    obtain ⟨l, w⟩ := p
    by_cases h1 : lexLt k l = true
    · rw [btreeInsert_cons, if_pos h1]
      simp only [assocLookup]
    · by_cases h2 : k = l
      · subst h2
        rw [btreeInsert_cons, if_neg h1, if_pos rfl]
        simp only [assocLookup]
        by_cases hs : s = k
        · rw [if_pos hs, if_pos hs]
        · rw [if_neg hs, if_neg hs, if_neg hs]
      · rw [btreeInsert_cons, if_neg h1, if_neg h2]
        simp only [assocLookup, ih]
        by_cases hsl : s = l
        · subst hsl
          rw [if_pos rfl, if_neg (fun hh => h2 hh.symm), if_pos rfl]
        · rw [if_neg hsl, if_neg hsl]

theorem btreemap_loop_ok_iff :
    ∀ (entries : List (Value × Value)) (m : List (Bytes × Value)),
      resIsOk (btreemap_string_loop entries m) = true ↔
        ∀ p ∈ entries, resIsOk (string_try_from p.1) = true := by
  intro entries
  induction entries with
  | nil => intro m; simp [btreemap_string_loop, resIsOk]
  | cons e rest ih =>
    intro m
    obtain ⟨key, value⟩ := e
    cases hk : string_try_from key with
    | error err => simp [btreemap_string_loop, hk, resIsOk]
    | ok kk =>
      simp only [btreemap_string_loop, hk]
      rw [ih]
      simp [List.forall_mem_cons, hk, resIsOk]

theorem btreemap_loop_lookup :
    ∀ (entries : List (Value × Value)) (m r : List (Bytes × Value)),
      btreemap_string_loop entries m = .ok r →
      ∀ s : Bytes,
        assocLookup s r
          = match lastTextVal s entries with
            | some w => some w
            | none => assocLookup s m := by
  intro entries
  induction entries with
  | nil =>
    intro m r h s
    simp only [btreemap_string_loop] at h
    cases h
    simp [lastTextVal]
  | cons e rest ih =>
    intro m r h s
    obtain ⟨key, value⟩ := e
    cases hk : string_try_from key with
    | error err => simp [btreemap_string_loop, hk] at h
    | ok kk =>
      simp only [btreemap_string_loop, hk] at h
      rw [ih _ r h s]
      simp only [lastTextVal, hk]
      cases hrest : lastTextVal s rest with
      | some w => simp
      | none =>
        simp only [assocLookup_btreeInsert]
        by_cases hsk : s = kk
        · subst hsk
          rw [if_pos rfl, if_pos rfl]
        · rw [if_neg hsk, if_neg (fun hh => hsk hh.symm)]

theorem btreemap_loop_sorted :
    ∀ (entries : List (Value × Value)) (m r : List (Bytes × Value)),
      keysSorted m → btreemap_string_loop entries m = .ok r → keysSorted r := by
  intro entries
  induction entries with
  | nil =>
    intro m r hm h
    simp only [btreemap_string_loop] at h
    cases h
    exact hm
  | cons e rest ih =>
    intro m r hm h
    obtain ⟨key, value⟩ := e
    cases hk : string_try_from key with
    | error err => simp [btreemap_string_loop, hk] at h
    | ok kk =>
      simp only [btreemap_string_loop, hk] at h
      exact ih _ r (keysSorted_insert kk value m hm) h

theorem beq_DESC_ERROR_iff (d : Value) :
    (Value.beq d DESC_ERROR = true) ↔ d = DESC_ERROR := by
  cases d <;> simp [Value.beq, DESC_ERROR]

/-! ## Claim theorems -/

/-- C9: for every scalar Value whose variant exactly matches the requested
target type (each unsigned integer width, boolean), conversion succeeds and
returns the wrapped payload unchanged. -/
theorem scalar_roundtrip_identity :
    (∀ n : Nat, u8_try_from (Value.ubyte n) = .ok n) ∧
    (∀ n : Nat, u16_try_from (Value.ushort n) = .ok n) ∧
    (∀ n : Nat, u32_try_from (Value.uint n) = .ok n) ∧
    (∀ n : Nat, u64_try_from (Value.ulong n) = .ok n) ∧
    (∀ b : Bool, bool_try_from (Value.bool b) = .ok b) :=
  ⟨fun _ => rfl, fun _ => rfl, fun _ => rfl, fun _ => rfl, fun _ => rfl⟩

/-- C2 (code bug): converting a non-Ushort Value (here Null) to u16 yields a
decode error whose message names u32 — not the attempted 16-bit target type
as the spec requires. -/
theorem u16_mismatch_names_u32 :
    u16_try_from Value.null
      = .error (AmqpError.amqp_error condition.DECODE_ERROR
          (some "Error converting value to u32")) := rfl

/-- C7: converting Null to Option-of-T succeeds as absent; converting any
non-Null Value delegates to the conversion for T, wrapping success as present
and propagating a delegate failure unchanged. -/
theorem option_composition {α : Type} (f : Value → Result α) :
    option_try_from f Value.null = .ok none ∧
    ∀ v : Value, v ≠ Value.null → option_try_from f v = (f v).map some := by
  refine ⟨rfl, fun v hv => ?_⟩
  cases v <;> simp_all [option_try_from] <;> (cases h : f _ <;> simp [Except.map, h])

/-- Witness for C7 at concrete inputs (an inner success and an inner failure). -/
theorem option_composition_witness :
    Value.uint 5 ≠ Value.null ∧
    option_try_from u32_try_from (Value.uint 5)
      = (u32_try_from (Value.uint 5)).map some ∧
    Value.bool true ≠ Value.null ∧
    option_try_from u32_try_from (Value.bool true)
      = (u32_try_from (Value.bool true)).map some :=
  ⟨by simp, (option_composition u32_try_from).2 _ (by simp),
   by simp, (option_composition u32_try_from).2 _ (by simp)⟩

/-- C6: a sequence requested from a single non-List, non-Array Value converts
that single value as an element, wrapping success in a one-element sequence
and failing on element failure; Null in particular takes this promotion path
(element conversion of Null), not an empty sequence. -/
theorem vec_singleton_promotion {α : Type} (f : Value → Result α) :
    (∀ v : Value, v.isList = false → v.isArray = false →
      vec_try_from f v = (f v).map (fun a => [a])) ∧
    vec_try_from f Value.null = (f Value.null).map (fun a => [a]) := by
  have main : ∀ v : Value, v.isList = false → v.isArray = false →
      vec_try_from f v = (f v).map (fun a => [a]) := by
    intro v h1 h2
    cases v <;> simp_all [Value.isList, Value.isArray] <;>
      (cases h : f _ <;> simp [vec_try_from, Except.map, h])
  exact ⟨main, main Value.null rfl rfl⟩

/-- Witness for C6 at concrete inputs. -/
theorem vec_singleton_promotion_witness :
    Value.isList (Value.ubyte 7) = false ∧
    Value.isArray (Value.ubyte 7) = false ∧
    vec_try_from u8_try_from (Value.ubyte 7)
      = (u8_try_from (Value.ubyte 7)).map (fun a => [a]) ∧
    vec_try_from u8_try_from Value.null
      = (u8_try_from Value.null).map (fun a => [a]) :=
  ⟨rfl, rfl, (vec_singleton_promotion u8_try_from).1 _ rfl rfl,
   (vec_singleton_promotion u8_try_from).2⟩

/-- C8: conversion to text succeeds for the Symbol variant (bytes
reinterpreted as UTF-8 with lossy replacement) and the native text variant and
fails for every other variant; conversion to Symbol succeeds only for the
Symbol variant and fails for every other variant, the text variant included. -/
theorem text_symbol_rules :
    (∀ bs : Bytes, string_try_from (Value.symbol bs) = .ok (from_utf8_lossy bs)) ∧
    (∀ s : Bytes, string_try_from (Value.string s) = .ok s) ∧
    (∀ v : Value, v.isSymbol = false → v.isString = false →
      string_try_from v
        = .error (AmqpError.amqp_error condition.DECODE_ERROR
            (some "Error converting value to String"))) ∧
    (∀ bs : Bytes, symbol_try_from (Value.symbol bs) = .ok (Symbol.from_vec bs)) ∧
    (∀ v : Value, v.isSymbol = false →
      symbol_try_from v
        = .error (AmqpError.amqp_error condition.DECODE_ERROR
            (some "Error converting value to Symbol"))) := by
  refine ⟨fun _ => rfl, fun _ => rfl, ?_, fun _ => rfl, ?_⟩
  · intro v h1 h2
    cases v <;> first | rfl | simp_all [Value.isSymbol, Value.isString]
  · intro v h1
    cases v <;> first | rfl | simp_all [Value.isSymbol]

/-- Witness for C8 at concrete inputs (note the asymmetry: a text Value is
rejected by the Symbol conversion). -/
theorem text_symbol_rules_witness :
    Value.isSymbol (Value.string [104]) = false ∧
    symbol_try_from (Value.string [104])
      = .error (AmqpError.amqp_error condition.DECODE_ERROR
          (some "Error converting value to Symbol")) ∧
    Value.isSymbol Value.null = false ∧
    Value.isString Value.null = false ∧
    string_try_from Value.null
      = .error (AmqpError.amqp_error condition.DECODE_ERROR
          (some "Error converting value to String")) :=
  ⟨rfl, text_symbol_rules.2.2.2.2 _ rfl, rfl, rfl,
   text_symbol_rules.2.2.1 _ rfl rfl⟩

/-- C10: a List or Array with a failing element yields a freshly constructed
generic decode error (naming list or array elements respectively) that
discards the element's own error, whereas a failing scalar-to-singleton
promotion returns the element conversion's error unchanged. -/
theorem vec_error_provenance {α : Type} (f : Value → Result α) :
    (∀ xs : List Value, (∃ x ∈ xs, resIsOk (f x) = false) →
      vec_try_from f (Value.list xs)
        = .error (AmqpError.decode_error (some "Error decoding list elements")) ∧
      vec_try_from f (Value.array xs)
        = .error (AmqpError.decode_error (some "Error decoding array elements"))) ∧
    (∀ (v : Value) (e : AmqpError), v.isList = false → v.isArray = false →
      f v = .error e → vec_try_from f v = .error e) := by
  constructor
  · intro xs h
    have hpos := partition_errors_pos f xs h
    constructor
    · simp only [vec_try_from]
      rw [if_pos hpos]
    · simp only [vec_try_from]
      rw [if_pos hpos]
  · intro v e h1 h2 hf
    cases v <;> simp_all [Value.isList, Value.isArray] <;> simp [vec_try_from, hf]

/-- Witness for C10 at concrete inputs: the element error (a u8 mismatch
message) is discarded by the List and Array arms and propagated by the
promotion arm. -/
theorem vec_error_provenance_witness :
    (∃ x ∈ [Value.bool true], resIsOk (u8_try_from x) = false) ∧
    vec_try_from u8_try_from (Value.list [Value.bool true])
      = .error (AmqpError.decode_error (some "Error decoding list elements")) ∧
    vec_try_from u8_try_from (Value.array [Value.bool true])
      = .error (AmqpError.decode_error (some "Error decoding array elements")) ∧
    Value.isList (Value.bool true) = false ∧
    Value.isArray (Value.bool true) = false ∧
    u8_try_from (Value.bool true)
      = .error (AmqpError.amqp_error condition.DECODE_ERROR
          (some "Error converting value to u8")) ∧
    vec_try_from u8_try_from (Value.bool true)
      = .error (AmqpError.amqp_error condition.DECODE_ERROR
          (some "Error converting value to u8")) :=
  ⟨by decide,
   ((vec_error_provenance u8_try_from).1 _ (by decide)).1,
   ((vec_error_provenance u8_try_from).1 _ (by decide)).2,
   rfl, rfl, rfl,
   (vec_error_provenance u8_try_from).2 _ _ rfl rfl rfl⟩

/-- C1: converting a List or Array whose elements all convert to T yields an
ordered sequence of exactly the input's length, elementwise in original
order; if any single element fails to convert, the whole conversion fails
with one decode error and no sequence is returned. -/
theorem vec_all_or_nothing {α : Type} (f : Value → Result α) (xs : List Value) :
    ((∀ x ∈ xs, resIsOk (f x) = true) →
      ∃ ys : List α,
        vec_try_from f (Value.list xs) = .ok ys ∧
        vec_try_from f (Value.array xs) = .ok ys ∧
        ys.length = xs.length ∧
        List.Forall₂ (fun x y => f x = .ok y) xs ys) ∧
    ((∃ x ∈ xs, resIsOk (f x) = false) →
      (∃ e, vec_try_from f (Value.list xs) = .error e ∧
        e.condition = condition.DECODE_ERROR) ∧
      (∃ e, vec_try_from f (Value.array xs) = .error e ∧
        e.condition = condition.DECODE_ERROR)) := by
  constructor
  · intro h
    obtain ⟨h1, h2⟩ := partition_ok_all f xs h
    have hf2 := forall2_filterMap f xs h
    refine ⟨(xs.map f).filterMap okValue, ?_, ?_, (hf2.length_eq).symm, hf2⟩
    · simp only [vec_try_from]
      rw [if_neg (by rw [h2]; simp), h1]
    · simp only [vec_try_from]
      rw [if_neg (by rw [h2]; simp), h1]
  · intro h
    have hpos := partition_errors_pos f xs h
    constructor
    · refine ⟨AmqpError.decode_error (some "Error decoding list elements"), ?_, rfl⟩
      simp only [vec_try_from]
      rw [if_pos hpos]
    · refine ⟨AmqpError.decode_error (some "Error decoding array elements"), ?_, rfl⟩
      simp only [vec_try_from]
      rw [if_pos hpos]

/-- Witness for C1 at concrete inputs: a fully convertible two-element
List/Array and one with a failing element. -/
theorem vec_all_or_nothing_witness :
    ((∀ x ∈ [Value.ubyte 1, Value.ubyte 2], resIsOk (u8_try_from x) = true) ∧
      (∃ ys : List Nat,
        vec_try_from u8_try_from (Value.list [Value.ubyte 1, Value.ubyte 2]) = .ok ys ∧
        vec_try_from u8_try_from (Value.array [Value.ubyte 1, Value.ubyte 2]) = .ok ys ∧
        ys.length = [Value.ubyte 1, Value.ubyte 2].length ∧
        List.Forall₂ (fun x y => u8_try_from x = .ok y)
          [Value.ubyte 1, Value.ubyte 2] ys)) ∧
    ((∃ x ∈ [Value.ubyte 1, Value.bool true], resIsOk (u8_try_from x) = false) ∧
      (∃ e, vec_try_from u8_try_from (Value.list [Value.ubyte 1, Value.bool true])
          = .error e ∧ e.condition = condition.DECODE_ERROR) ∧
      (∃ e, vec_try_from u8_try_from (Value.array [Value.ubyte 1, Value.bool true])
          = .error e ∧ e.condition = condition.DECODE_ERROR)) :=
  ⟨⟨by decide, (vec_all_or_nothing u8_try_from _).1 (by decide)⟩,
   ⟨by decide, (vec_all_or_nothing u8_try_from _).2 (by decide)⟩⟩

/-- C5: the text-keyed Map conversion succeeds exactly when every key
converts by the text rule (any failing key fails the whole conversion, no
partial mapping); the resulting mapping associates each text key with the
unconverted value of the last wire entry whose key converts to it
(last-write-wins); any non-Map Value fails. -/
theorem map_text_key_policy :
    (∀ entries : List (Value × Value),
      resIsOk (btreemap_string_try_from (Value.map entries)) = true ↔
        ∀ p ∈ entries, resIsOk (string_try_from p.1) = true) ∧
    (∀ (entries : List (Value × Value)) (m : List (Bytes × Value)),
      btreemap_string_try_from (Value.map entries) = .ok m →
      ∀ s : Bytes, assocLookup s m = lastTextVal s entries) ∧
    (∀ v : Value, v.isMap = false →
      btreemap_string_try_from v
        = .error (AmqpError.amqp_error condition.DECODE_ERROR
            (some "Error converting value to Vec<Symbol>"))) := by
  refine ⟨fun entries => ?_, fun entries m h s => ?_, fun v hv => ?_⟩
  · exact btreemap_loop_ok_iff entries []
  · have := btreemap_loop_lookup entries [] m h s
    rw [this]
    cases lastTextVal s entries <;> rfl
  · cases v <;> first | rfl | simp_all [Value.isMap]

/-- Witness for C5 at concrete inputs: two wire entries (a text key and a
symbol key) converting to the same text key resolve to the later value; a
non-Map input fails. -/
theorem map_text_key_policy_witness :
    (resIsOk (btreemap_string_try_from
        (Value.map [(Value.string [97], Value.bool true),
                    (Value.symbol [97], Value.null)])) = true ↔
      ∀ p ∈ [(Value.string [97], Value.bool true), (Value.symbol [97], Value.null)],
        resIsOk (string_try_from p.1) = true) ∧
    btreemap_string_try_from
        (Value.map [(Value.string [97], Value.bool true),
                    (Value.symbol [97], Value.null)])
      = .ok [([97], Value.null)] ∧
    assocLookup [97] [([97], Value.null)]
      = lastTextVal [97]
          [(Value.string [97], Value.bool true), (Value.symbol [97], Value.null)] ∧
    Value.isMap Value.null = false ∧
    btreemap_string_try_from Value.null
      = .error (AmqpError.amqp_error condition.DECODE_ERROR
          (some "Error converting value to Vec<Symbol>")) :=
  ⟨map_text_key_policy.1 _, rfl,
   map_text_key_policy.2.1
     [(Value.string [97], Value.bool true), (Value.symbol [97], Value.null)]
     [([97], Value.null)] rfl [97],
   rfl, map_text_key_policy.2.2 _ rfl⟩

/-- C3 counterexample: a two-entry Map whose wire order is key "b" then key
"a" converts to the text-keyed mapping with entries in sorted key order "a"
then "b" — the original wire order of the entries is not preserved. -/
theorem map_wire_order_counterexample :
    btreemap_string_try_from
        (Value.map [(Value.string [98], Value.null),
                    (Value.string [97], Value.bool true)])
      = .ok [([97], Value.bool true), ([98], Value.null)] ∧
    ([([97], Value.bool true), ([98], Value.null)] : List (Bytes × Value))
      ≠ [([98], Value.null), ([97], Value.bool true)] := by
  refine ⟨rfl, ?_⟩
  intro h
  simp at h

/-- C3 (amended): the generic Value-to-Value mapping returns the Map's
entries unchanged, preserving wire order; the text-keyed mapping's output is
ordered strictly ascending by the converted key (the `BTreeMap` order), which
in general differs from the original wire order. -/
theorem map_order_amended :
    (∀ entries : List (Value × Value),
      btreemap_value_try_from (Value.map entries) = .ok entries) ∧
    (∀ (entries : List (Value × Value)) (m : List (Bytes × Value)),
      btreemap_string_try_from (Value.map entries) = .ok m → keysSorted m) := by
  refine ⟨fun entries => rfl, fun entries m h => ?_⟩
  exact btreemap_loop_sorted entries [] m trivial h

/-- Witness for C3's amended statement at concrete inputs. -/
theorem map_order_amended_witness :
    btreemap_value_try_from (Value.map [(Value.null, Value.bool true)])
      = .ok [(Value.null, Value.bool true)] ∧
    keysSorted [([97], Value.bool true), ([98], Value.null)] :=
  ⟨map_order_amended.1 _,
   map_order_amended.2
     [(Value.string [98], Value.null), (Value.string [97], Value.bool true)] _ rfl⟩

/-- C4: conversion to ErrorCondition succeeds only for a Described value; the
descriptor is checked for equality with the well-known error descriptor and
any other descriptor fails with a decode error citing the found descriptor,
without invoking the ErrorCondition field decoder; the matching descriptor
dispatches to the field decoder; a non-Described Value always fails. -/
theorem errorcondition_descriptor_gating :
    (∀ d p : Value, d ≠ DESC_ERROR →
      errorcondition_try_from (Value.described d p)
        = .error (AmqpError.decode_error
            (some ("Expected error descriptor but found " ++ valueDebug d)))) ∧
    (∀ p : Value,
      errorcondition_try_from (Value.described DESC_ERROR p)
        = ErrorCondition.decode ⟨DESC_ERROR, p⟩) ∧
    (∀ v : Value, v.isDescribed = false →
      errorcondition_try_from v
        = .error (AmqpError.decode_error
            (some "Missing expected error descriptor"))) := by
  refine ⟨fun d p hd => ?_, fun p => rfl, fun v hv => ?_⟩
  · have hb : Value.beq d DESC_ERROR = false := by
      cases hbe : Value.beq d DESC_ERROR
      · rfl
      · exact absurd ((beq_DESC_ERROR_iff d).1 hbe) hd
    simp only [errorcondition_try_from, FrameDecoder.new, hb, Bool.false_eq_true,
      if_false]
  · cases v <;> first | rfl | simp_all [Value.isDescribed]

/-- Witness for C4 at concrete inputs: a wrong descriptor, the well-known
error descriptor with a decodable payload, and a non-Described value. -/
theorem errorcondition_descriptor_gating_witness :
    Value.null ≠ DESC_ERROR ∧
    errorcondition_try_from (Value.described Value.null (Value.list []))
      = .error (AmqpError.decode_error
          (some ("Expected error descriptor but found " ++ valueDebug Value.null))) ∧
    errorcondition_try_from
        (Value.described DESC_ERROR (Value.list [Value.symbol [97]]))
      = ErrorCondition.decode ⟨DESC_ERROR, Value.list [Value.symbol [97]]⟩ ∧
    ErrorCondition.decode ⟨DESC_ERROR, Value.list [Value.symbol [97]]⟩
      = .ok ⟨Symbol.from_vec [97], none, none⟩ ∧
    Value.isDescribed Value.null = false ∧
    errorcondition_try_from Value.null
      = .error (AmqpError.decode_error (some "Missing expected error descriptor")) :=
  ⟨by simp [DESC_ERROR],
   errorcondition_descriptor_gating.1 _ _ (by simp [DESC_ERROR]),
   errorcondition_descriptor_gating.2.1 _,
   rfl, rfl,
   errorcondition_descriptor_gating.2.2 _ rfl⟩

end Dove
